import Mathlib

/-!
Verification of the generation-orchestration service
(`app/services/deepseek.server.js` and `app/utils/sanitize.server.js`).

The JavaScript source is shallowly embedded: every pure fragment becomes a
Lean function, the stateful/effectful parts (Redis counters, cache, the
upstream HTTP call, sleeps) become explicit state passing plus an effect
trace, and thrown JS errors become `Except String` values carrying the same
message strings the source builds.

Platform builtins used by the source are modelled as follows:
* `JSON.parse` is modelled by an executable JSON parser (`jsonParse`)
  following the ECMA-404 grammar (numbers are kept as their source lexemes,
  since no code under verification computes with their numeric values).
* `crypto` SHA-1 hashing is kept parametric (`buildCacheKeyWith` takes the
  hash function as an argument): the properties proved either hold for every
  hash function or are stated relative to an injective hash.
* `sanitizeHTML` (DOMPurify) is kept parametric: `generateDescription` takes
  the sanitizer as an explicit function argument.
* Bracket access on the `vibeMap`/`formatMap` object literals follows the JS
  prototype chain (`jsPropLookup`): an own property first, then the
  `Object.prototype` members (`toString`, `constructor`, ...), which are NOT
  nullish and therefore defeat the `??` fallback, and only then `undefined`.
-/

set_option maxRecDepth 16000

namespace Deskribe

/-- JavaScript values produced by `JSON.parse`: null, booleans, numbers
(kept as their unparsed lexeme), strings, arrays and objects.  Object fields
keep first-insertion order with later duplicate keys overwriting the value,
as `JSON.parse` does. -/
inductive Json where
  | null : Json
  | bool (b : Bool) : Json
  | num (lexeme : String) : Json
  | str (s : String) : Json
  | arr (elems : List Json) : Json
  | obj (fields : List (String × Json)) : Json

/-- JSON insignificant whitespace (ECMA-404): space, tab, line feed,
carriage return. -/
def isJsonWs (c : Char) : Bool :=
  c = ' ' || c = '\t' || c = '\n' || c = '\r'

/-- Drop leading JSON whitespace. -/
def skipJsonWs (cs : List Char) : List Char :=
  cs.dropWhile isJsonWs

/-- Hexadecimal digit value, for `\uXXXX` string escapes. -/
def hexVal (c : Char) : Option Nat :=
  if '0' ≤ c ∧ c ≤ '9' then some (c.toNat - '0'.toNat)
  else if 'a' ≤ c ∧ c ≤ 'f' then some (c.toNat - 'a'.toNat + 10)
  else if 'A' ≤ c ∧ c ≤ 'F' then some (c.toNat - 'A'.toNat + 10)
  else none

/-- Parse the body of a JSON string literal (the opening quote has been
consumed); returns the decoded string and the input after the closing
quote.  Raw control characters are rejected, escapes are decoded; a
`\uXXXX` escape is decoded with `Char.ofNat` (lone surrogates, which Lean
chars cannot represent, fall back to `Char.ofNat`'s default — no input in
this development contains them). -/
def parseStringBody : List Char → String → Option (String × List Char)
  | [], _ => none
  | c :: rest, acc =>
    if c = '"' then some (acc, rest)
    else if c = '\\' then
      match rest with
      | [] => none
      | e :: rest2 =>
        if e = '"' then parseStringBody rest2 (acc.push '"')
        else if e = '\\' then parseStringBody rest2 (acc.push '\\')
        else if e = '/' then parseStringBody rest2 (acc.push '/')
        else if e = 'b' then parseStringBody rest2 (acc.push '\x08')
        else if e = 'f' then parseStringBody rest2 (acc.push '\x0c')
        else if e = 'n' then parseStringBody rest2 (acc.push '\n')
        else if e = 'r' then parseStringBody rest2 (acc.push '\r')
        else if e = 't' then parseStringBody rest2 (acc.push '\t')
        else if e = 'u' then
          match rest2 with
          | h1 :: h2 :: h3 :: h4 :: rest3 =>
            match hexVal h1, hexVal h2, hexVal h3, hexVal h4 with
            | some a, some b, some c2, some d =>
              parseStringBody rest3 (acc.push (Char.ofNat (((a * 16 + b) * 16 + c2) * 16 + d)))
            | _, _, _, _ => none
          | _ => none
        else none
    else if c.toNat < 32 then none
    else parseStringBody rest (acc.push c)

/-- Lex a JSON number (`-? int frac? exp?`, no leading zeros); returns the
lexeme and the remaining input. -/
def numLexeme (cs : List Char) : Option (String × List Char) :=
  let (negPart, cs1) : List Char × List Char :=
    match cs with
    | '-' :: r => (['-'], r)
    | _ => ([], cs)
  match cs1 with
  | [] => none
  | c :: rest =>
    if c = '0' ∨ ('1' ≤ c ∧ c ≤ '9') then
      let (intRest, afterInt) :=
        if c = '0' then ([], rest)
        else (rest.takeWhile Char.isDigit, rest.dropWhile Char.isDigit)
      let intPart := negPart ++ c :: intRest
      let (fracPart, afterFrac) : List Char × List Char :=
        match afterInt with
        | '.' :: fr =>
          let ds := fr.takeWhile Char.isDigit
          if ds.isEmpty then ([], afterInt) else ('.' :: ds, fr.dropWhile Char.isDigit)
        | _ => ([], afterInt)
      -- a dot not followed by a digit makes the whole token invalid
      match afterInt, fracPart with
      | '.' :: _, [] => none
      | _, _ =>
        let (expPart, afterExp) : List Char × List Char :=
          match afterFrac with
          | e :: er =>
            if e = 'e' ∨ e = 'E' then
              let (sgn, er2) : List Char × List Char :=
                match er with
                | s :: r2 => if s = '+' ∨ s = '-' then ([s], r2) else ([], er)
                | [] => ([], er)
              let ds := er2.takeWhile Char.isDigit
              if ds.isEmpty then ([], afterFrac)
              else (e :: (sgn ++ ds), er2.dropWhile Char.isDigit)
            else ([], afterFrac)
          | [] => ([], afterFrac)
        -- an exponent marker not followed by digits makes the token invalid
        match afterFrac, expPart with
        | e :: _, [] => if e = 'e' ∨ e = 'E' then none else some (String.mk (intPart ++ fracPart), afterFrac)
        | _, _ => some (String.mk (intPart ++ fracPart ++ expPart), afterExp)
    else none

/-- Insert or overwrite a key: keeps the first-insertion position of an
existing key and replaces its value, as JS object assignment does. -/
def upsert : List (String × Json) → String → Json → List (String × Json)
  | [], k, v => [(k, v)]
  | (k2, v2) :: rest, k, v =>
    if k2 = k then (k, v) :: rest else (k2, v2) :: upsert rest k v

/-- Parser modes: a value, the inside of an array (just after `[` or a
comma), or the inside of an object. -/
inductive PMode where
  | val : PMode
  | arrFirst : PMode
  | arrElem (acc : List Json) : PMode
  | objFirst : PMode
  | objMember (acc : List (String × Json)) : PMode

/-- Fueled JSON parser core.  Fuel only bounds recursion depth; callers pass
fuel linear in the input length, which is ample (each recursive call
consumes input). -/
def parseCore : Nat → PMode → List Char → Option (Json × List Char)
  | 0, _, _ => none
  | fuel + 1, .val, cs =>
    match skipJsonWs cs with
    | 'n' :: 'u' :: 'l' :: 'l' :: rest => some (.null, rest)
    | 't' :: 'r' :: 'u' :: 'e' :: rest => some (.bool true, rest)
    | 'f' :: 'a' :: 'l' :: 's' :: 'e' :: rest => some (.bool false, rest)
    | '"' :: rest => (parseStringBody rest "").map (fun p => (.str p.1, p.2))
    | '[' :: rest => parseCore fuel .arrFirst rest
    | '\x7b' :: rest => parseCore fuel .objFirst rest
    | other => (numLexeme other).map (fun p => (.num p.1, p.2))
  | fuel + 1, .arrFirst, cs =>
    match skipJsonWs cs with
    | ']' :: rest => some (.arr [], rest)
    | other => parseCore fuel (.arrElem []) other
  | fuel + 1, .arrElem acc, cs =>
    match parseCore fuel .val cs with
    | none => none
    | some (v, rest) =>
      match skipJsonWs rest with
      | ',' :: rest2 => parseCore fuel (.arrElem (acc ++ [v])) rest2
      | ']' :: rest2 => some (.arr (acc ++ [v]), rest2)
      | _ => none
  | fuel + 1, .objFirst, cs =>
    match skipJsonWs cs with
    | '\x7d' :: rest => some (.obj [], rest)
    | other => parseCore fuel (.objMember []) other
  | fuel + 1, .objMember acc, cs =>
    match skipJsonWs cs with
    | '"' :: rest =>
      match parseStringBody rest "" with
      | none => none
      | some (k, rest2) =>
        match skipJsonWs rest2 with
        | ':' :: rest3 =>
          match parseCore fuel .val rest3 with
          | none => none
          | some (v, rest4) =>
            match skipJsonWs rest4 with
            | ',' :: rest5 => parseCore fuel (.objMember (upsert acc k v)) rest5
            | '\x7d' :: rest5 => some (.obj (upsert acc k v), rest5)
            | _ => none
        | _ => none
    | _ => none

/-- Model of `JSON.parse` on a character list: parse one value and require
only whitespace after it. -/
def jsonParseChars (cs : List Char) : Option Json :=
  match parseCore (2 * cs.length + 2) .val cs with
  | some (j, rest) => if skipJsonWs rest = [] then some j else none
  | none => none

/-- Model of `JSON.parse` on a string. -/
def jsonParse (s : String) : Option Json :=
  jsonParseChars s.data


/-! ## Response extractor (`extractJsonFromText`, deepseek.server.js lines 63-103) -/

/-- The backtick character (code 96). -/
def backtickChar : Char := Char.ofNat 96

/-- Model of `text.replace(/```(json)?/g, "")`: delete every occurrence of
three backticks, consuming a directly following `json` as part of the same
match, scanning left to right without re-examining replaced positions. -/
def stripFencesAux : Nat → List Char → List Char
  | 0, cs => cs
  | _ + 1, [] => []
  | fuel + 1, c1 :: rest1 =>
    match rest1 with
    | c2 :: c3 :: rest =>
      if c1 = backtickChar ∧ c2 = backtickChar ∧ c3 = backtickChar then
        match rest with
        | 'j' :: 's' :: 'o' :: 'n' :: rest2 => stripFencesAux fuel rest2
        | _ => stripFencesAux fuel rest
      else c1 :: stripFencesAux fuel rest1
    | _ => c1 :: rest1

/-- Model of `text.replace(/```(json)?/g, "")` (see `stripFencesAux`;
the fuel, one unit per character, never runs out because every recursive
call consumes at least one character). -/
def stripFences (cs : List Char) : List Char :=
  stripFencesAux cs.length cs

/-- Whitespace removed by JS `String.prototype.trim` (restricted to the
ASCII whitespace characters that occur in this development). -/
def isJsTrimWs (c : Char) : Bool :=
  c = ' ' || c = '\t' || c = '\n' || c = '\r' || c = '\x0b' || c = '\x0c'

/-- Model of `String.prototype.trim`. -/
def jsTrim (cs : List Char) : List Char :=
  ((cs.dropWhile isJsTrimWs).reverse.dropWhile isJsTrimWs).reverse

/-- The cleaned text the extractor works on:
`text.replace(/```(json)?/g, "").trim()`. -/
def cleanedOf (text : String) : List Char :=
  jsTrim (stripFences text.data)

/-- `cleaned.slice(a, b)` — characters at positions `a` to `b - 1`. -/
def sliceChars (cs : List Char) (a b : Nat) : List Char :=
  (cs.drop a).take (b - a)

/-- The balanced-block scan of the extractor (source lines 77-92): starting
at the first `\x7b`, track brace nesting depth; at each closing brace that
returns the depth to zero, try to parse `cleaned.slice(start, i + 1)`; keep
scanning when that candidate fails to parse.  `suffix` is the not yet
scanned part of `cleaned`, `i` its starting index. -/
def scanLoop (cleaned : List Char) (start : Nat) :
    List Char → Nat → Int → Option Json
  | [], _, _ => none
  | c :: rest, i, depth =>
    if c = '\x7b' then scanLoop cleaned start rest (i + 1) (depth + 1)
    else if c = '\x7d' then
      let d := depth - 1
      if d = 0 then
        match jsonParseChars (sliceChars cleaned start (i + 1)) with
        | some j => some j
        | none => scanLoop cleaned start rest (i + 1) d
      else scanLoop cleaned start rest (i + 1) d
    else scanLoop cleaned start rest (i + 1) depth

/-- Index of the first occurrence of `c`, `none` when absent
(JS `indexOf` returning `-1`). -/
def firstIdxOf (cs : List Char) (c : Char) : Option Nat :=
  cs.findIdx? (· = c)

/-- Index of the last occurrence of `c`, `none` when absent. -/
def lastIdxOf (cs : List Char) (c : Char) : Option Nat :=
  match (cs.reverse).findIdx? (· = c) with
  | some k => some (cs.length - 1 - k)
  | none => none

/-- The final fallback `cleaned.match(/\x7b[\s\S]*\x7d/)`: the greedy match
runs from the first `\x7b` to the last `\x7d`, provided that brace pair is in
order; try to parse it. -/
def regexFallback (cleaned : List Char) : Option Json :=
  match firstIdxOf cleaned '\x7b', lastIdxOf cleaned '\x7d' with
  | some i, some j =>
    if i < j then jsonParseChars (sliceChars cleaned i (j + 1)) else none
  | _, _ => none

/-- Model of `extractJsonFromText` (source lines 64-103).  The
`typeof text !== "string"` guard of the source is dropped (the embedding is
typed); `!text` on a string is the empty-string test. -/
def extractJsonFromText (text : String) : Except String Json :=
  if text = "" then .error "Empty response"
  else
    let cleaned := cleanedOf text
    match jsonParseChars cleaned with
    | some j => .ok j
    | none =>
      match firstIdxOf cleaned '\x7b' with
      | none => .error "No JSON object found in AI response"
      | some start =>
        match scanLoop cleaned start (cleaned.drop start) start 0 with
        | some j => .ok j
        | none =>
          match regexFallback cleaned with
          | some j => .ok j
          | none => .error "Could not extract valid JSON from AI response"


/-! ## JS value helpers used by the orchestrator -/

/-- Key lookup on a JS object (`parsed[k]`); `none` models `undefined`,
also for non-object values. -/
def Json.getField : Json → String → Option Json
  | .obj fields, k => fields.lookup k
  | _, _ => none

/-- Property assignment `j[k] = v`.  On non-objects this is the identity:
JS would attach a property to an array, but such a property is invisible to
`JSON.stringify` and never read back by this code. -/
def Json.setField : Json → String → Json → Json
  | .obj fields, k, v => .obj (upsert fields k v)
  | j, _, _ => j

/-- `if (!(k in j)) j[k] = v` — add a default for a missing key
(source lines 262-263). -/
def ensureField (j : Json) (k : String) (v : Json) : Json :=
  match j with
  | .obj fields => if (fields.lookup k).isSome then j else .obj (fields ++ [(k, v)])
  | _ => j

/-- Is the number lexeme the number zero (`0`, `-0`, `0.00`, `0e9`, ...)? -/
def lexemeIsZero (s : String) : Bool :=
  let cs := match s.data with
    | '-' :: r => r
    | other => other
  (cs.takeWhile (fun c => c ≠ 'e' ∧ c ≠ 'E')).all (fun c => c = '0' || c = '.')

/-- JS truthiness of a parsed JSON value. -/
def jsTruthy : Json → Bool
  | .null => false
  | .bool b => b
  | .num lexeme => !lexemeIsZero lexeme
  | .str s => s ≠ ""
  | .arr _ => true
  | .obj _ => true

/-- JS `String(x)` on a parsed JSON value.  Strings are the only case this
code meaningfully hits (`description` is an HTML string); the other cases
approximate JS `toString` (array elements are rendered one level deep). -/
def jsToString : Json → String
  | .str s => s
  | .null => "null"
  | .bool true => "true"
  | .bool false => "false"
  | .num lexeme => lexeme
  | .obj _ => "[object Object]"
  | .arr elems =>
    String.intercalate "," (elems.map fun e =>
      match e with
      | .str s => s
      | .null => ""
      | .bool true => "true"
      | .bool false => "false"
      | .num lexeme => lexeme
      | .obj _ => "[object Object]"
      | .arr _ => "")

/-! ## Cache key (`sha1`, `buildCacheKey`, source lines 29 and 50-53) -/

/-- The string interpolated before hashing in `buildCacheKey`:
`` `${productId}|${vibe}|${format}|${keywords ?? ""}|${includeSocials}` ``.
A nullish `keywords` reaches this function as `""`; the boolean interpolates
as `"true"`/`"false"`. -/
def cacheKeyPayload (productId vibe fmt keywords : String)
    (includeSocials : Bool) : String :=
  productId ++ "|" ++ vibe ++ "|" ++ fmt ++ "|" ++ keywords ++ "|" ++
    (if includeSocials then "true" else "false")

/-- `buildCacheKey`, parametric in the hash (`sha1` truncated to 12 hex
characters in the source; only its functionality, not its definition, is
relevant to the claims). -/
def buildCacheKeyWith (hash : String → String) (productId vibe fmt keywords : String)
    (includeSocials : Bool) : String :=
  "deepseek:cache:" ++ hash (cacheKeyPayload productId vibe fmt keywords includeSocials)

/-! ## Prompt builder (`normalizeMetafields`, `buildPrompt`,
source lines 32-48 and 274-309) -/

/-- The shapes `normalizeMetafields` distinguishes: a plain array of
strings, a GraphQL `edges` list of `(key, value)` nodes, or anything else.
(String-valued nodes only; the source `JSON.stringify`s other node values,
which no caller produces.) -/
inductive MetafieldsShape where
  | absent : MetafieldsShape
  | arr (xs : List String) : MetafieldsShape
  | edges (xs : List (String × String)) : MetafieldsShape

/-- The product fields read by the service. -/
structure Product where
  id : Option String := none
  title : Option String := none
  description : Option String := none
  metafields : MetafieldsShape := .absent

/-- Constructor options of `DeepSeekService` with their defaults
(source lines 106-112); `apiKeyConfigured` models whether
`opts.apiKey ?? DEEPSEEK_API_KEY` is set.  `RATE_LIMIT_PER_MIN` and
`MONTHLY_LIMIT` (source lines 16-17) are carried here with their
environment defaults. -/
structure ServiceConfig where
  apiKeyConfigured : Bool
  maxRetries : Nat := 3
  timeoutMs : Nat := 25000
  rateLimitPerMin : Nat := 30
  monthlyLimit : Nat := 150

/-- The arguments of `generateDescription` with their defaults
(source line 171). -/
structure GenRequest where
  product : Option Product := none
  vibe : String := "edgy"
  fmt : String := "paragraph"
  keywords : String := ""
  includeSocials : Bool := false
  shop : Option String := none

/-- Outcome of one upstream `fetch`: an abort by the timeout timer, a
rejected fetch carrying the thrown message, or an HTTP response (`ok`,
status, and the AI text / error body). -/
inductive UpstreamOutcome where
  | timeout : UpstreamOutcome
  | fetchError (msg : String) : UpstreamOutcome
  | httpResponse (ok : Bool) (status : Nat) (text : String) : UpstreamOutcome

/-- External state for one `generateDescription` call. -/
structure World where
  redisAvailable : Bool
  redisOpsFail : Bool := false
  rateCount : Nat := 0
  monthlyUsed : Nat := 0
  cached : Option String := none
  outcomes : Nat → UpstreamOutcome

/-- Observable effects of one `generateDescription` call. -/
structure Trace where
  upstreamCalls : Nat := 0
  waits : List Nat := []
  cacheWrites : List (Nat × Json) := []
  usageIncremented : Bool := false

/-- Result of `checkRateLimit`. -/
structure RateLimitResult where
  allowed : Bool
  remaining : Nat

/-- `checkRateLimit` (source lines 125-139): absent shop or unavailable
Redis fail open; otherwise `INCR` the counter, `EXPIRE 60` exactly when the
post-increment count is 1, reject when the count exceeds the limit.
Returns (result, counter after the call, whether EXPIRE was issued);
a throwing Redis command leaves the counter unchanged. -/
def checkRateLimit (limit : Nat) (shop : Option String)
    (redisAvailable opsFail : Bool) (count : Nat) :
    RateLimitResult × Nat × Bool :=
  match shop with
  | none => (⟨true, limit⟩, count, false)
  | some _ =>
    if !redisAvailable then (⟨true, limit⟩, count, false)
    else if opsFail then (⟨true, limit⟩, count, false)
    else
      let c := count + 1
      let expire := c = 1
      if limit < c then (⟨false, 0⟩, c, expire)
      else (⟨true, limit - c⟩, c, expire)

/-- Result of `checkMonthlyLimit`. -/
structure MonthlyLimitResult where
  allowed : Bool
  used : Nat
  limit : Nat

/-- `checkMonthlyLimit` (source lines 141-154): absent shop, unavailable
Redis, or a throwing command fail open with `used = 0`; otherwise read the
stored usage and reject when it has reached the limit. -/
def checkMonthlyLimit (limit : Nat) (shop : Option String)
    (redisAvailable opsFail : Bool) (used : Nat) : MonthlyLimitResult :=
  match shop with
  | none => ⟨true, 0, limit⟩
  | some _ =>
    if !redisAvailable then ⟨true, 0, limit⟩
    else if opsFail then ⟨true, 0, limit⟩
    else if limit ≤ used then ⟨false, used, limit⟩
    else ⟨true, used, limit⟩

/-- Whether `incrementUsage` (source lines 156-169) actually increments:
it returns early without a shop or without Redis, and a throwing `INCRBY`
is caught and logged.  (The month-aligned expiry it re-sets on success is
real time and is not modelled.) -/
def incrementUsageEffect (shop : Option String) (redisAvailable opsFail : Bool) : Bool :=
  shop.isSome && redisAvailable && !opsFail

/-- The cache lookup of `generateDescription` (source lines 180-191): only
with Redis available and the `GET` not throwing; an empty stored string is
falsy and skipped; `JSON.parse` failure on the stored string is swallowed
and treated as a miss. -/
def cacheLookup (redisAvailable opsFail : Bool) (cached : Option String) : Option Json :=
  if redisAvailable && !opsFail then
    match cached with
    | some s => if s = "" then none else jsonParse s
    | none => none
  else none

/-- `_callDeepSeekHTTP` (source lines 217-272) for one upstream outcome:
missing API key throws before any fetch; an abort is reported as the
distinct timeout message; a non-2xx response throws with status and body;
on a 2xx response the AI text goes through `extractJsonFromText`, the
result must be a non-null `typeof "object"` value (objects and arrays),
and missing `description`/`socials` keys are defaulted. -/
def callDeepSeekHTTP (apiKeyConfigured : Bool) (o : UpstreamOutcome) :
    Except String Json :=
  if !apiKeyConfigured then .error "DeepSeek API key is not configured"
  else
    match o with
    | .timeout => .error "DeepSeek request timed out"
    | .fetchError msg => .error msg
    | .httpResponse false status body =>
      .error ("DeepSeek HTTP " ++ toString status ++ ": " ++ body)
    | .httpResponse true _ aiText =>
      match extractJsonFromText aiText with
      | .error e => .error e
      | .ok parsed =>
        match parsed with
        | .obj _ =>
          .ok (ensureField (ensureField parsed "description" (.str "")) "socials" .null)
        | .arr _ =>
          .ok (ensureField (ensureField parsed "description" (.str "")) "socials" .null)
        | _ => .error "AI returned invalid JSON object"

/-- `if (result?.description) result.description = sanitizeHTML(String(result.description))`
(source line 200): only a truthy `description` value is sanitized. -/
def sanitizeDescription (sanitize : String → String) (result : Json) : Json :=
  match Json.getField result "description" with
  | some d =>
    if jsTruthy d then Json.setField result "description" (.str (sanitize (jsToString d)))
    else result
  | none => result

/-- The retry loop of `generateDescription` (source lines 195-214).
`remaining` counts attempts left (initially `maxRetries`), `attempt` is the
1-based attempt number.  On success: sanitize, best-effort `SETEX` with TTL
`60 * 60 * 24`, best-effort usage increment when a shop is present, return.
On failure: remember the error and, before any non-final attempt, sleep
`500 * attempt` ms.  When attempts are exhausted the last error message is
wrapped (`null` last error reads "unknown error"). -/
def genLoop (san : String → String) (cfg : ServiceConfig)
    (outcomes : Nat → UpstreamOutcome) (haveRedis opsFail : Bool)
    (shop : Option String) :
    Nat → Nat → Option String → Trace → Except String Json × Trace
  | 0, _, lastErr, tr =>
    (.error ("Generation failed: " ++ lastErr.getD "unknown error"), tr)
  | remaining + 1, attempt, _, tr =>
    match callDeepSeekHTTP cfg.apiKeyConfigured (outcomes attempt) with
    | .ok raw =>
      let result := sanitizeDescription san raw
      (.ok result,
       { tr with upstreamCalls := tr.upstreamCalls + 1,
                 cacheWrites := tr.cacheWrites ++
                   (if haveRedis && !opsFail then [(60 * 60 * 24, result)] else []),
                 usageIncremented := tr.usageIncremented ||
                   incrementUsageEffect shop haveRedis opsFail })
    | .error e =>
      genLoop san cfg outcomes haveRedis opsFail shop remaining (attempt + 1) (some e)
        { tr with upstreamCalls := tr.upstreamCalls + 1,
                  waits := tr.waits ++ (if remaining ≠ 0 then [500 * attempt] else []) }

/-- `generateDescription` (source lines 171-215): rate-limit check, monthly
check, cache lookup (returning a parseable non-empty cached value
immediately), then the retry loop.  The prompt built at line 193 is only
passed to the upstream call, which the outcome oracle abstracts, and the
cache key of line 178 selects which stored value `World.cached` denotes
(the key function itself is `buildCacheKeyWith`). -/
def generateDescription (sanitize : String → String) (cfg : ServiceConfig)
    (req : GenRequest) (w : World) : Except String Json × Trace :=
  let rl := (checkRateLimit cfg.rateLimitPerMin req.shop w.redisAvailable w.redisOpsFail w.rateCount).1
  if !rl.allowed then (.error "Rate limit exceeded. Try again shortly.", {}) else
  let ml := checkMonthlyLimit cfg.monthlyLimit req.shop w.redisAvailable w.redisOpsFail w.monthlyUsed
  if !ml.allowed then
    (.error ("Monthly limit reached: " ++ toString ml.used ++ "/" ++ toString ml.limit), {})
  else
    let haveRedis := w.redisAvailable
    match cacheLookup w.redisAvailable w.redisOpsFail w.cached with
    | some j => (.ok j, {})
    | none =>
      genLoop sanitize cfg w.outcomes haveRedis w.redisOpsFail req.shop
        cfg.maxRetries 1 none {}

/-- The rate-limit counter after `n` healthy same-shop calls inside one
60-second window (the window starts with the counter key absent, i.e. 0;
nothing expires between the calls). -/
def rateCounterAfter (limit : Nat) (shop : String) : Nat → Nat
  | 0 => 0
  | n + 1 =>
    (checkRateLimit limit (some shop) true false (rateCounterAfter limit shop n)).2.1


/-! ## Derived notions used only to state theorems -/

/-- The `n`-th `checkRateLimit` call (1-based) for one shop inside a single
60-second window that starts from an absent counter, with Redis healthy
throughout. -/
def nthRateLimitCall (limit : Nat) (shop : String) (n : Nat) :
    RateLimitResult × Nat × Bool :=
  checkRateLimit limit (some shop) true false (rateCounterAfter limit shop (n - 1))

/-- A string not containing the `|` separator used by `buildCacheKey`. -/
abbrev pipeFree (s : String) : Prop := '|' ∉ s.data

/-- Erase the `description` field of an object (used to state that
everything except `description` is independent of the sanitizer). -/
def removeDescription : Json → Json
  | .obj fields => .obj (fields.filter fun kv => kv.1 ≠ "description")
  | j => j

/-- Erase `description` under `Except`. -/
def stripResult : Except String Json → Except String Json
  | .ok v => .ok (removeDescription v)
  | .error e => .error e

/-- Erase `description` in recorded cache writes. -/
def stripWrites (ws : List (Nat × Json)) : List (Nat × Json) :=
  ws.map fun p => (p.1, removeDescription p.2)


/-! ## Theorems -/

/-- A healthy same-shop `checkRateLimit` call moves the counter from `k` to
`k + 1` regardless of the verdict, so after `n` calls in one window the
counter is `n`. -/
theorem rateCounterAfter_eq (limit : Nat) (shop : String) :
    ∀ n, rateCounterAfter limit shop n = n := by
  intro n
  induction n with
  | zero => rfl
  | succ k ih =>
    simp only [rateCounterAfter, ih, checkRateLimit]
    simp only [Bool.not_true, Bool.false_eq_true, if_false]
    split <;> rfl

/-- One healthy `n`-th window call in closed form. -/
theorem nthRateLimitCall_eq (L n : Nat) (shop : String) (hn : 1 ≤ n) :
    nthRateLimitCall L shop n =
      if L < n then (⟨false, 0⟩, n, decide (n = 1))
      else (⟨true, L - n⟩, n, decide (n = 1)) := by
  have hcount : n - 1 + 1 = n := by omega
  simp only [nthRateLimitCall, rateCounterAfter_eq, checkRateLimit]
  simp only [Bool.not_true, Bool.false_eq_true, if_false, hcount]

/-- Claim C2: for a present tenant with Redis healthy, the `n`-th call in a
60-second window increments the counter to `n` and returns
`allowed = true, remaining = L - n` when `n ≤ L` and
`allowed = false, remaining = 0` when `n > L`; the 60-second expiry is
issued exactly by the call whose post-increment count is 1; an absent
tenant is allowed unconditionally. -/
theorem checkRateLimit_window_behavior (L n : Nat) (shop : String) (hn : 1 ≤ n) :
    (nthRateLimitCall L shop n).2.1 = n ∧
    (n ≤ L → (nthRateLimitCall L shop n).1.allowed = true ∧
      (nthRateLimitCall L shop n).1.remaining = L - n) ∧
    (L < n → (nthRateLimitCall L shop n).1.allowed = false ∧
      (nthRateLimitCall L shop n).1.remaining = 0) ∧
    ((nthRateLimitCall L shop n).2.2 = true ↔ n = 1) ∧
    (∀ (avail opsFail : Bool) (c : Nat),
      (checkRateLimit L none avail opsFail c).1.allowed = true) := by
  rw [nthRateLimitCall_eq L n shop hn]
  refine ⟨?_, ?_, ?_, ?_, ?_⟩
  · split <;> rfl
  · intro hle
    have hnl : ¬ L < n := by omega
    simp [hnl]
  · intro hlt
    simp [hlt]
  · split <;> simp [decide_eq_true_eq]
  · intro avail opsFail c
    cases avail <;> cases opsFail <;> rfl

/-- Witness for C2 at `L = 30`: call 31 inside one window is rejected with
`remaining = 0`, and the counter then reads 31. -/
theorem checkRateLimit_window_behavior_witness :
    (nthRateLimitCall 30 "shop" 31).1.allowed = false ∧
    (nthRateLimitCall 30 "shop" 31).1.remaining = 0 ∧
    (nthRateLimitCall 30 "shop" 31).2.1 = 31 := by
  have h := checkRateLimit_window_behavior 30 31 "shop" (by omega)
  exact ⟨(h.2.2.1 (by omega)).1, (h.2.2.1 (by omega)).2, h.1⟩

/-- The retry loop only consults `haveRedis`/`opsFail` through the
conjunction `haveRedis && !opsFail` (the write gate and the usage-increment
gate). -/
theorem genLoop_gates_eq (san : String → String) (cfg : ServiceConfig)
    (o : Nat → UpstreamOutcome) (shop : Option String) (hr1 of1 hr2 of2 : Bool)
    (hg : (hr1 && !of1) = (hr2 && !of2)) :
    ∀ r a le tr, genLoop san cfg o hr1 of1 shop r a le tr =
      genLoop san cfg o hr2 of2 shop r a le tr := by
  intro r
  induction r with
  | zero => intro a le tr; rfl
  | succ k ih =>
    intro a le tr
    have hu : incrementUsageEffect shop hr1 of1 = incrementUsageEffect shop hr2 of2 := by
      simp only [incrementUsageEffect, Bool.and_assoc, hg]
    cases hq : callDeepSeekHTTP cfg.apiKeyConfigured (o a) with
    | ok raw => simp only [genLoop, hq, hg, hu]
    | error e => simp only [genLoop, hq]; exact ih (a + 1) (some e) _

/-- Claim C8: store-layer failures never propagate.  With Redis unavailable
or with every Redis command throwing, `checkRateLimit` and
`checkMonthlyLimit` fail open (`allowed = true`) and leave no trace on the
store, `incrementUsage` has no effect, and a `generateDescription` call in
a world whose Redis commands all throw behaves exactly like one in a world
with no Redis connection at all. -/
theorem store_failures_fail_open :
    (∀ (L : Nat) (shop : Option String) (opsFail : Bool) (c : Nat),
      checkRateLimit L shop false opsFail c = (⟨true, L⟩, c, false)) ∧
    (∀ (L : Nat) (shop : Option String) (avail : Bool) (c : Nat),
      checkRateLimit L shop avail true c = (⟨true, L⟩, c, false)) ∧
    (∀ (L : Nat) (shop : Option String) (opsFail : Bool) (u : Nat),
      checkMonthlyLimit L shop false opsFail u = ⟨true, 0, L⟩) ∧
    (∀ (L : Nat) (shop : Option String) (avail : Bool) (u : Nat),
      checkMonthlyLimit L shop avail true u = ⟨true, 0, L⟩) ∧
    (∀ (shop : Option String) (avail : Bool), incrementUsageEffect shop avail true = false) ∧
    (∀ (shop : Option String) (opsFail : Bool), incrementUsageEffect shop false opsFail = false) ∧
    (∀ (san : String → String) (cfg : ServiceConfig) (req : GenRequest) (w : World),
      generateDescription san cfg req { w with redisOpsFail := true } =
        generateDescription san cfg req { w with redisAvailable := false }) := by
  refine ⟨?_, ?_, ?_, ?_, ?_, ?_, ?_⟩
  · intro L shop opsFail c; cases shop <;> rfl
  · intro L shop avail c; cases shop <;> cases avail <;> rfl
  · intro L shop opsFail u; cases shop <;> rfl
  · intro L shop avail u; cases shop <;> cases avail <;> rfl
  · intro shop avail; simp [incrementUsageEffect]
  · intro shop opsFail; simp [incrementUsageEffect]
  · intro san cfg req w
    have hrl : checkRateLimit cfg.rateLimitPerMin req.shop w.redisAvailable true w.rateCount =
        (⟨true, cfg.rateLimitPerMin⟩, w.rateCount, false) := by
      cases req.shop <;> cases w.redisAvailable <;> rfl
    have hrl2 : checkRateLimit cfg.rateLimitPerMin req.shop false w.redisOpsFail w.rateCount =
        (⟨true, cfg.rateLimitPerMin⟩, w.rateCount, false) := by
      cases req.shop <;> rfl
    have hml : checkMonthlyLimit cfg.monthlyLimit req.shop w.redisAvailable true w.monthlyUsed =
        ⟨true, 0, cfg.monthlyLimit⟩ := by
      cases req.shop <;> cases w.redisAvailable <;> rfl
    have hml2 : checkMonthlyLimit cfg.monthlyLimit req.shop false w.redisOpsFail w.monthlyUsed =
        ⟨true, 0, cfg.monthlyLimit⟩ := by
      cases req.shop <;> rfl
    have hcache1 : cacheLookup w.redisAvailable true w.cached = none := by
      simp [cacheLookup]
    have hcache2 : cacheLookup false w.redisOpsFail w.cached = none := by
      simp [cacheLookup]
    simp only [generateDescription, hrl, hrl2, hml, hml2, hcache1, hcache2,
      Bool.not_true, Bool.false_eq_true, if_false]
    exact genLoop_gates_eq san cfg w.outcomes req.shop w.redisAvailable true false
      w.redisOpsFail (by simp) cfg.maxRetries 1 none {}


/-- Shift lemma for the backoff waits recorded by the retry loop. -/
theorem waits_shift (a k : Nat) :
    (List.range (k + 1)).map (fun i => 500 * (a + i)) =
      500 * a :: (List.range k).map (fun i => 500 * (a + 1 + i)) := by
  rw [List.range_succ_eq_map, List.map_cons, List.map_map]
  refine congrArg₂ _ (by omega) (List.map_congr_left fun i _ => ?_)
  simp only [Function.comp]
  omega

/-- When every attempt fails, the retry loop starting at attempt `a` with
`r + 1` attempts left makes exactly `r + 1` upstream calls, sleeps
`500 * attempt` after every attempt but the last, and wraps the final
attempt's message. -/
theorem genLoop_allFail (san : String → String) (cfg : ServiceConfig)
    (o : Nat → UpstreamOutcome) (hr of : Bool) (shop : Option String)
    (em : Nat → String)
    (h : ∀ n, callDeepSeekHTTP cfg.apiKeyConfigured (o n) = .error (em n)) :
    ∀ r a le tr, genLoop san cfg o hr of shop (r + 1) a le tr =
      (.error ("Generation failed: " ++ em (a + r)),
       { tr with upstreamCalls := tr.upstreamCalls + r + 1,
                 waits := tr.waits ++ (List.range r).map (fun i => 500 * (a + i)) }) := by
  intro r
  induction r with
  | zero =>
    intro a le tr
    rw [genLoop, h a]
    simp [genLoop]
  | succ k ih =>
    intro a le tr
    rw [genLoop, h a]
    dsimp only
    rw [ih (a + 1)]
    have harith : a + 1 + k = a + (k + 1) := by omega
    rw [harith]
    simp [waits_shift a k, Trace.mk.injEq]
    omega

/-- The retry loop makes at most `remaining` further upstream calls. -/
theorem genLoop_calls_le (san : String → String) (cfg : ServiceConfig)
    (o : Nat → UpstreamOutcome) (hr of : Bool) (shop : Option String) :
    ∀ r a le tr,
      (genLoop san cfg o hr of shop r a le tr).2.upstreamCalls ≤ tr.upstreamCalls + r := by
  intro r
  induction r with
  | zero => intro a le tr; simp [genLoop]
  | succ k ih =>
    intro a le tr
    rw [genLoop]
    cases hq : callDeepSeekHTTP cfg.apiKeyConfigured (o a) with
    | ok raw => simp
    | error e =>
      dsimp only
      have h2 := ih (a + 1) (some e)
        { tr with upstreamCalls := tr.upstreamCalls + 1,
                  waits := tr.waits ++ (if k ≠ 0 then [500 * a] else []) }
      dsimp only at h2
      omega

/-- Case analysis on a retry-loop run: either it fails, leaving cache
writes and the usage flag untouched, or some attempt's upstream call
succeeded with value `raw`, the result is the sanitized `raw`, exactly one
cache write of the sanitized result with TTL 86400 was appended when the
write gate was open, the usage flag was set iff `incrementUsage` had its
effect, and at least one upstream call was made. -/
theorem genLoop_master (san : String → String) (cfg : ServiceConfig)
    (o : Nat → UpstreamOutcome) (hr of : Bool) (shop : Option String) :
    ∀ r a le tr,
      ((genLoop san cfg o hr of shop r a le tr).2.cacheWrites = tr.cacheWrites ∧
       (genLoop san cfg o hr of shop r a le tr).2.usageIncremented = tr.usageIncremented ∧
       ∃ e, (genLoop san cfg o hr of shop r a le tr).1 = .error e) ∨
      (∃ n raw, callDeepSeekHTTP cfg.apiKeyConfigured (o n) = .ok raw ∧
        (genLoop san cfg o hr of shop r a le tr).1 = .ok (sanitizeDescription san raw) ∧
        (genLoop san cfg o hr of shop r a le tr).2.cacheWrites =
          tr.cacheWrites ++ (if hr && !of then [(60 * 60 * 24, sanitizeDescription san raw)] else []) ∧
        (genLoop san cfg o hr of shop r a le tr).2.usageIncremented =
          (tr.usageIncremented || incrementUsageEffect shop hr of) ∧
        tr.upstreamCalls + 1 ≤ (genLoop san cfg o hr of shop r a le tr).2.upstreamCalls) := by
  intro r
  induction r with
  | zero =>
    intro a le tr
    exact Or.inl ⟨rfl, rfl, _, rfl⟩
  | succ k ih =>
    intro a le tr
    rw [genLoop]
    cases hq : callDeepSeekHTTP cfg.apiKeyConfigured (o a) with
    | ok raw =>
      dsimp only
      exact Or.inr ⟨a, raw, hq, rfl, by simp, by simp, by simp⟩
    | error e =>
      dsimp only
      have h2 := ih (a + 1) (some e)
        { tr with upstreamCalls := tr.upstreamCalls + 1,
                  waits := tr.waits ++ (if k ≠ 0 then [500 * a] else []) }
      dsimp only at h2
      rcases h2 with ⟨hw, hu, e2, he⟩ | ⟨n, raw, hok, hres, hw, hu, hc⟩
      · exact Or.inl ⟨hw, hu, e2, he⟩
      · refine Or.inr ⟨n, raw, hok, hres, hw, hu, by omega⟩


/-- With all three gates passing (rate limit allowed, monthly limit
allowed, cache miss), `generateDescription` is exactly the retry loop
started with `maxRetries` attempts, attempt number 1 and an empty trace. -/
theorem generate_fresh (san : String → String) (cfg : ServiceConfig)
    (req : GenRequest) (w : World)
    (hrl : (checkRateLimit cfg.rateLimitPerMin req.shop w.redisAvailable w.redisOpsFail
      w.rateCount).1.allowed = true)
    (hml : (checkMonthlyLimit cfg.monthlyLimit req.shop w.redisAvailable w.redisOpsFail
      w.monthlyUsed).allowed = true)
    (hcache : cacheLookup w.redisAvailable w.redisOpsFail w.cached = none) :
    generateDescription san cfg req w =
      genLoop san cfg w.outcomes w.redisAvailable w.redisOpsFail req.shop
        cfg.maxRetries 1 none {} := by
  simp only [generateDescription, hrl, hml, hcache, Bool.not_true, Bool.false_eq_true, if_false]

/-- Every `generateDescription` call takes one of four paths: rate-limit
rejection, monthly-limit rejection, cache hit, or the fresh retry loop. -/
theorem generate_cases (san : String → String) (cfg : ServiceConfig)
    (req : GenRequest) (w : World) :
    generateDescription san cfg req w = (.error "Rate limit exceeded. Try again shortly.", {}) ∨
    (∃ (u l : Nat), generateDescription san cfg req w =
      (.error ("Monthly limit reached: " ++ toString u ++ "/" ++ toString l), {})) ∨
    (∃ j, cacheLookup w.redisAvailable w.redisOpsFail w.cached = some j ∧
      generateDescription san cfg req w = (.ok j, {})) ∨
    (cacheLookup w.redisAvailable w.redisOpsFail w.cached = none ∧
      generateDescription san cfg req w =
        genLoop san cfg w.outcomes w.redisAvailable w.redisOpsFail req.shop
          cfg.maxRetries 1 none {}) := by
  cases hrl : (checkRateLimit cfg.rateLimitPerMin req.shop w.redisAvailable w.redisOpsFail
      w.rateCount).1.allowed with
  | false =>
    refine Or.inl ?_
    simp [generateDescription, hrl]
  | true =>
    cases hml : (checkMonthlyLimit cfg.monthlyLimit req.shop w.redisAvailable w.redisOpsFail
        w.monthlyUsed).allowed with
    | false =>
      refine Or.inr (Or.inl ⟨(checkMonthlyLimit cfg.monthlyLimit req.shop w.redisAvailable
        w.redisOpsFail w.monthlyUsed).used, (checkMonthlyLimit cfg.monthlyLimit req.shop
        w.redisAvailable w.redisOpsFail w.monthlyUsed).limit, ?_⟩)
      simp [generateDescription, hrl, hml]
    | true =>
      cases hc : cacheLookup w.redisAvailable w.redisOpsFail w.cached with
      | some j =>
        refine Or.inr (Or.inr (Or.inl ⟨j, rfl, ?_⟩))
        simp [generateDescription, hrl, hml, hc]
      | none =>
        exact Or.inr (Or.inr (Or.inr ⟨rfl, generate_fresh san cfg req w hrl hml hc⟩))

/-- Inversion for a successful `_callDeepSeekHTTP`: the API key was
configured, the HTTP response was 2xx, its text extracted to `parsed`, and
the returned value is `parsed` with `description`/`socials` defaulted. -/
theorem callDeepSeekHTTP_ok_inv (key : Bool) (o : UpstreamOutcome) (raw : Json)
    (h : callDeepSeekHTTP key o = .ok raw) :
    key = true ∧ ∃ status text parsed, o = .httpResponse true status text ∧
      extractJsonFromText text = .ok parsed ∧
      raw = ensureField (ensureField parsed "description" (.str "")) "socials" .null := by
  cases key with
  | false => simp [callDeepSeekHTTP] at h
  | true =>
    refine ⟨rfl, ?_⟩
    cases o with
    | timeout => simp [callDeepSeekHTTP] at h
    | fetchError m => simp [callDeepSeekHTTP] at h
    | httpResponse ok status text =>
      cases ok with
      | false => simp [callDeepSeekHTTP] at h
      | true =>
        cases hext : extractJsonFromText text with
        | error e => rw [callDeepSeekHTTP] at h; simp [hext] at h
        | ok parsed =>
          refine ⟨status, text, parsed, rfl, hext, ?_⟩
          rw [callDeepSeekHTTP] at h
          simp only [Bool.not_true, Bool.false_eq_true, if_false, hext] at h
          cases parsed <;> simp_all

/-- Claim C5: `generateDescription` makes at most `maxRetries` upstream
attempts; with all gates passing and every attempt failing it makes
exactly `maxRetries` calls, sleeps `500 * n` ms after each failed
non-final attempt `n` and not after the final one, and fails wrapping the
final attempt's message; an aborted attempt is reported with the distinct
timeout message; the constructor defaults are 3 attempts and a 25000 ms
per-call timeout. -/
theorem generate_retry_backoff_timeout :
    (∀ (san : String → String) (cfg : ServiceConfig) (req : GenRequest) (w : World),
      (generateDescription san cfg req w).2.upstreamCalls ≤ cfg.maxRetries) ∧
    (∀ (san : String → String) (cfg : ServiceConfig) (req : GenRequest) (w : World)
      (em : Nat → String),
      (∀ n, callDeepSeekHTTP cfg.apiKeyConfigured (w.outcomes n) = .error (em n)) →
      (checkRateLimit cfg.rateLimitPerMin req.shop w.redisAvailable w.redisOpsFail
        w.rateCount).1.allowed = true →
      (checkMonthlyLimit cfg.monthlyLimit req.shop w.redisAvailable w.redisOpsFail
        w.monthlyUsed).allowed = true →
      cacheLookup w.redisAvailable w.redisOpsFail w.cached = none →
      1 ≤ cfg.maxRetries →
      (generateDescription san cfg req w).1 =
        .error ("Generation failed: " ++ em cfg.maxRetries) ∧
      (generateDescription san cfg req w).2.upstreamCalls = cfg.maxRetries ∧
      (generateDescription san cfg req w).2.waits =
        (List.range (cfg.maxRetries - 1)).map (fun i => 500 * (i + 1))) ∧
    (callDeepSeekHTTP true .timeout = .error "DeepSeek request timed out") ∧
    (∀ b : Bool, ({ apiKeyConfigured := b } : ServiceConfig).maxRetries = 3 ∧
      ({ apiKeyConfigured := b } : ServiceConfig).timeoutMs = 25000) := by
  refine ⟨?_, ?_, rfl, fun b => ⟨rfl, rfl⟩⟩
  · intro san cfg req w
    rcases generate_cases san cfg req w with h | ⟨u, l, h⟩ | ⟨j, _, h⟩ | ⟨_, h⟩ <;> rw [h]
    · simp
    · simp
    · simp
    · simpa using genLoop_calls_le san cfg w.outcomes w.redisAvailable w.redisOpsFail
        req.shop cfg.maxRetries 1 none {}
  · intro san cfg req w em hall hrl hml hcache hm
    rw [generate_fresh san cfg req w hrl hml hcache]
    obtain ⟨r, hrr⟩ : ∃ r, cfg.maxRetries = r + 1 := ⟨cfg.maxRetries - 1, by omega⟩
    rw [hrr, genLoop_allFail san cfg w.outcomes w.redisAvailable w.redisOpsFail req.shop
      em hall r 1 none {}]
    have h1r : 1 + r = r + 1 := by omega
    have hr1 : r + 1 - 1 = r := by omega
    refine ⟨by rw [h1r], by simp, ?_⟩
    rw [hr1]
    simp only [List.nil_append]
    exact List.map_congr_left fun i _ => by simp [Nat.add_comm]

/-- Witness for C5: with defaults (3 attempts) and every attempt timing
out, the call makes 3 upstream calls, waits 500 then 1000 ms, and fails
wrapping the timeout message of the last attempt. -/
theorem generate_retry_backoff_timeout_witness :
    (generateDescription id { apiKeyConfigured := true } {}
      { redisAvailable := false, outcomes := fun _ => .timeout }).1 =
      .error ("Generation failed: " ++ "DeepSeek request timed out") ∧
    (generateDescription id { apiKeyConfigured := true } {}
      { redisAvailable := false, outcomes := fun _ => .timeout }).2.upstreamCalls = 3 ∧
    (generateDescription id { apiKeyConfigured := true } {}
      { redisAvailable := false, outcomes := fun _ => .timeout }).2.waits =
      (List.range 2).map (fun i => 500 * (i + 1)) := by
  exact (generate_retry_backoff_timeout.2.1 id { apiKeyConfigured := true } {}
    { redisAvailable := false, outcomes := fun _ => .timeout }
    (fun _ => "DeepSeek request timed out") (fun _ => rfl) rfl rfl rfl (by decide))


/-- Counterexample to claim C1 as stated: with the default 3 retries, an
upstream HTTP success whose text contains no extractable object does NOT
stop the loop — `generateDescription` performs 3 upstream calls (not 1),
sleeping in between, before surfacing the extraction failure. -/
theorem extraction_failure_not_retried_counterexample :
    extractJsonFromText "no structured payload here" =
      .error "No JSON object found in AI response" ∧
    (generateDescription id { apiKeyConfigured := true } {}
      { redisAvailable := false,
        outcomes := fun _ => .httpResponse true 200 "no structured payload here" }).2.upstreamCalls
      = 3 ∧
    (3 : Nat) ≠ 1 ∧
    (generateDescription id { apiKeyConfigured := true } {}
      { redisAvailable := false,
        outcomes := fun _ => .httpResponse true 200 "no structured payload here" }).1 =
      .error "Generation failed: No JSON object found in AI response" :=
  ⟨rfl, rfl, by decide, rfl⟩

/-- Claim C1 (amended): a failure to extract a structured object from a
successful upstream HTTP response is treated like any other attempt
failure: it is retried within the retry loop, so with every attempt
returning HTTP success but unextractable text, `generateDescription`
makes exactly `maxRetries` upstream calls and then surfaces the extraction
failure wrapped in the generic generation-failure message. -/
theorem extraction_failure_retried_up_to_maxRetries
    (san : String → String) (cfg : ServiceConfig) (req : GenRequest) (w : World)
    (e : String)
    (hkey : cfg.apiKeyConfigured = true)
    (hout : ∀ n, ∃ status text, w.outcomes n = .httpResponse true status text ∧
      extractJsonFromText text = .error e)
    (hrl : (checkRateLimit cfg.rateLimitPerMin req.shop w.redisAvailable w.redisOpsFail
      w.rateCount).1.allowed = true)
    (hml : (checkMonthlyLimit cfg.monthlyLimit req.shop w.redisAvailable w.redisOpsFail
      w.monthlyUsed).allowed = true)
    (hcache : cacheLookup w.redisAvailable w.redisOpsFail w.cached = none)
    (hm : 1 ≤ cfg.maxRetries) :
    (generateDescription san cfg req w).1 = .error ("Generation failed: " ++ e) ∧
    (generateDescription san cfg req w).2.upstreamCalls = cfg.maxRetries := by
  have hall : ∀ n, callDeepSeekHTTP cfg.apiKeyConfigured (w.outcomes n) = .error e := by
    intro n
    obtain ⟨st, tx, ho, he⟩ := hout n
    rw [ho, hkey]
    simp [callDeepSeekHTTP, he]
  rw [generate_fresh san cfg req w hrl hml hcache]
  obtain ⟨r, hrr⟩ : ∃ r, cfg.maxRetries = r + 1 := ⟨cfg.maxRetries - 1, by omega⟩
  rw [hrr, genLoop_allFail san cfg w.outcomes w.redisAvailable w.redisOpsFail req.shop
    (fun _ => e) hall r 1 none {}]
  exact ⟨rfl, by simp⟩

/-- Witness for C1 (amended) on the counterexample input: 3 calls, wrapped
extraction error. -/
theorem extraction_failure_retried_up_to_maxRetries_witness :
    (generateDescription id { apiKeyConfigured := true } {}
      { redisAvailable := false,
        outcomes := fun _ => .httpResponse true 200 "no structured payload here" }).1 =
      .error ("Generation failed: " ++ "No JSON object found in AI response") ∧
    (generateDescription id { apiKeyConfigured := true } {}
      { redisAvailable := false,
        outcomes := fun _ => .httpResponse true 200 "no structured payload here" }).2.upstreamCalls
      = ({ apiKeyConfigured := true } : ServiceConfig).maxRetries :=
  extraction_failure_retried_up_to_maxRetries id { apiKeyConfigured := true } {}
    { redisAvailable := false,
      outcomes := fun _ => .httpResponse true 200 "no structured payload here" }
    "No JSON object found in AI response" rfl
    (fun _ => ⟨200, "no structured payload here", rfl, rfl⟩) rfl rfl rfl (by decide)

/-- Claim C6: on a cache hit (gates passing, a valid cached entry, store
available) `generateDescription` returns the cached value with an empty
effect trace — no upstream call, no cache write, no wait, no usage
increment; and in every run the usage counter is incremented only when a
fresh generation succeeded (the result is `ok` and at least one upstream
call was made). -/
theorem cache_hit_bypasses_upstream_and_usage :
    (∀ (san : String → String) (cfg : ServiceConfig) (req : GenRequest) (w : World) (j : Json),
      (checkRateLimit cfg.rateLimitPerMin req.shop w.redisAvailable w.redisOpsFail
        w.rateCount).1.allowed = true →
      (checkMonthlyLimit cfg.monthlyLimit req.shop w.redisAvailable w.redisOpsFail
        w.monthlyUsed).allowed = true →
      cacheLookup w.redisAvailable w.redisOpsFail w.cached = some j →
      generateDescription san cfg req w = (.ok j, {})) ∧
    (∀ (san : String → String) (cfg : ServiceConfig) (req : GenRequest) (w : World),
      (generateDescription san cfg req w).2.usageIncremented = true →
      (∃ v, (generateDescription san cfg req w).1 = .ok v) ∧
      1 ≤ (generateDescription san cfg req w).2.upstreamCalls) := by
  constructor
  · intro san cfg req w j hrl hml hcache
    simp [generateDescription, hrl, hml, hcache]
  · intro san cfg req w husage
    rcases generate_cases san cfg req w with h | ⟨u, l, h⟩ | ⟨j, hcj, h⟩ | ⟨hcn, h⟩
    · rw [h] at husage; simp at husage
    · rw [h] at husage; simp at husage
    · rw [h] at husage; simp at husage
    · rw [h] at husage ⊢
      rcases genLoop_master san cfg w.outcomes w.redisAvailable w.redisOpsFail req.shop
          cfg.maxRetries 1 none {} with ⟨hw, hu, e2, he⟩ | ⟨n, raw, hok, hres, hw2, hu2, hc2⟩
      · rw [hu] at husage; simp at husage
      · exact ⟨⟨_, hres⟩, by simpa using hc2⟩

/-- Witness for C6: a concrete cache hit returns the stored value with an
empty trace. -/
theorem cache_hit_bypasses_upstream_and_usage_witness :
    generateDescription id { apiKeyConfigured := true } {}
      { redisAvailable := true,
        cached := some "\x7b\"description\":\"hi\",\"socials\":null\x7d",
        outcomes := fun _ => .timeout } =
      (.ok (.obj [("description", .str "hi"), ("socials", .null)]), {}) :=
  cache_hit_bypasses_upstream_and_usage.1 id { apiKeyConfigured := true } {}
    { redisAvailable := true,
      cached := some "\x7b\"description\":\"hi\",\"socials\":null\x7d",
      outcomes := fun _ => .timeout }
    (.obj [("description", .str "hi"), ("socials", .null)]) rfl rfl rfl

/-- Claim C7: every cache write carries TTL `60 * 60 * 24` seconds and
stores exactly the value the call returns, which is the result of a
successful extraction from a 2xx upstream response, with missing
`description`/`socials` keys defaulted and the `description` field passed
through the sanitizer. -/
theorem cache_writes_only_accepted_results (san : String → String)
    (cfg : ServiceConfig) (req : GenRequest) (w : World) :
    ∀ p ∈ (generateDescription san cfg req w).2.cacheWrites,
      p.1 = 60 * 60 * 24 ∧
      (generateDescription san cfg req w).1 = .ok p.2 ∧
      ∃ n status text parsed,
        w.outcomes n = .httpResponse true status text ∧
        extractJsonFromText text = .ok parsed ∧
        p.2 = sanitizeDescription san
          (ensureField (ensureField parsed "description" (.str "")) "socials" .null) := by
  intro p hp
  rcases generate_cases san cfg req w with h | ⟨u, l, h⟩ | ⟨j, hcj, h⟩ | ⟨hcn, h⟩ <;>
    rw [h] at hp ⊢
  · simp at hp
  · simp at hp
  · simp at hp
  · rcases genLoop_master san cfg w.outcomes w.redisAvailable w.redisOpsFail req.shop
        cfg.maxRetries 1 none {} with ⟨hw, hu, e2, he⟩ | ⟨n, raw, hok, hres, hw2, hu2, hc2⟩
    · rw [hw] at hp; simp at hp
    · rw [hw2] at hp
      simp only [Trace.cacheWrites] at hp
      by_cases hg : (w.redisAvailable && !w.redisOpsFail) = true
      · rw [if_pos hg] at hp
        simp at hp
        obtain ⟨hp1, hp2⟩ : p.1 = 60 * 60 * 24 ∧ p.2 = sanitizeDescription san raw := by
          cases p; simp_all
        obtain ⟨-, st, tx, parsed, ho, hext, hraweq⟩ :=
          callDeepSeekHTTP_ok_inv cfg.apiKeyConfigured (w.outcomes n) raw hok
        refine ⟨hp1, ?_, n, st, tx, parsed, ho, hext, by rw [hp2, hraweq]⟩
        rw [hres, hp2]
      · rw [if_neg hg] at hp
        simp at hp


/-- Witness for C7: a concrete fresh success writes exactly one entry with
TTL 86400 holding the returned, normalized, sanitized result. -/
theorem cache_writes_only_accepted_results_witness :
    ((60 * 60 * 24 : Nat),
      Json.obj [("description", Json.str "<p>hi</p>"), ("socials", Json.null)]).1
        = 60 * 60 * 24 ∧
    (generateDescription id { apiKeyConfigured := true } {}
      { redisAvailable := true,
        outcomes := fun _ => .httpResponse true 200
          "\x7b\"description\":\"<p>hi</p>\",\"socials\":null\x7d" }).1 =
      .ok ((60 * 60 * 24 : Nat),
        Json.obj [("description", Json.str "<p>hi</p>"), ("socials", Json.null)]).2 ∧
    ∃ n status text parsed,
      (({ redisAvailable := true,
          outcomes := fun _ => .httpResponse true 200
            "\x7b\"description\":\"<p>hi</p>\",\"socials\":null\x7d" } : World)).outcomes n =
        .httpResponse true status text ∧
      extractJsonFromText text = .ok parsed ∧
      ((60 * 60 * 24 : Nat),
        Json.obj [("description", Json.str "<p>hi</p>"), ("socials", Json.null)]).2 =
        sanitizeDescription id
          (ensureField (ensureField parsed "description" (.str "")) "socials" .null) :=
  cache_writes_only_accepted_results id { apiKeyConfigured := true } {}
    { redisAvailable := true,
      outcomes := fun _ => .httpResponse true 200
        "\x7b\"description\":\"<p>hi</p>\",\"socials\":null\x7d" }
    ((60 * 60 * 24 : Nat),
      Json.obj [("description", Json.str "<p>hi</p>"), ("socials", Json.null)])
    (List.Mem.head _)

/-- Splitting an unambiguous separator: if neither prefix contains `|`,
equal separated concatenations have equal parts. -/
theorem pipe_split : ∀ (xs ys as bs : List Char), '|' ∉ xs → '|' ∉ ys →
    xs ++ '|' :: as = ys ++ '|' :: bs → xs = ys ∧ as = bs := by
  intro xs
  induction xs with
  | nil =>
    intro ys as bs _ hys h
    cases ys with
    | nil => simpa using h
    | cons y ys2 =>
      simp only [List.nil_append, List.cons_append, List.cons.injEq] at h
      exact (hys (by rw [← h.1]; exact List.mem_cons_self _ _)).elim
  | cons x xs2 ih =>
    intro ys as bs hxs hys h
    cases ys with
    | nil =>
      simp only [List.cons_append, List.nil_append, List.cons.injEq] at h
      exact (hxs (by rw [h.1]; exact List.mem_cons_self _ _)).elim
    | cons y ys2 =>
      simp only [List.cons_append, List.cons.injEq] at h
      obtain ⟨hxy, h2⟩ := h
      have hres := ih ys2 as bs (fun hm => hxs (List.mem_cons_of_mem _ hm))
        (fun hm => hys (List.mem_cons_of_mem _ hm)) h2
      exact ⟨by rw [hxy, hres.1], hres.2⟩

/-- The five components can be recovered from the payload when none of the
string inputs contains `|`. -/
theorem cacheKeyPayload_inj (p1 v1 f1 k1 : String) (b1 : Bool)
    (p2 v2 f2 k2 : String) (b2 : Bool)
    (hp1 : pipeFree p1) (hv1 : pipeFree v1) (hf1 : pipeFree f1) (hk1 : pipeFree k1)
    (hp2 : pipeFree p2) (hv2 : pipeFree v2) (hf2 : pipeFree f2) (hk2 : pipeFree k2)
    (h : cacheKeyPayload p1 v1 f1 k1 b1 = cacheKeyPayload p2 v2 f2 k2 b2) :
    p1 = p2 ∧ v1 = v2 ∧ f1 = f2 ∧ k1 = k2 ∧ b1 = b2 := by
  have hd : (cacheKeyPayload p1 v1 f1 k1 b1).data = (cacheKeyPayload p2 v2 f2 k2 b2).data := by
    rw [h]
  simp only [cacheKeyPayload, String.data_append, List.append_assoc] at hd
  simp only [List.singleton_append] at hd
  obtain ⟨hp, hd1⟩ := pipe_split _ _ _ _ hp1 hp2 hd
  obtain ⟨hv, hd2⟩ := pipe_split _ _ _ _ hv1 hv2 hd1
  obtain ⟨hf, hd3⟩ := pipe_split _ _ _ _ hf1 hf2 hd2
  obtain ⟨hk, hd4⟩ := pipe_split _ _ _ _ hk1 hk2 hd3
  refine ⟨String.ext hp, String.ext hv, String.ext hf, String.ext hk, ?_⟩
  cases b1 <;> cases b2 <;> simp_all

/-- Counterexample to claim C3 as stated: two different input tuples whose
`|`-separated payloads coincide, so they receive the same cache key
whatever hash function is applied — the "fingerprints equal iff inputs
equal" direction fails. -/
theorem cacheKey_collision_counterexample :
    cacheKeyPayload "p|x" "v" "f" "k" true = cacheKeyPayload "p" "x|v" "f" "k" true ∧
    buildCacheKeyWith (fun st => st) "p|x" "v" "f" "k" true =
      buildCacheKeyWith (fun st => st) "p" "x|v" "f" "k" true ∧
    ¬ (("p|x" : String) = "p" ∧ ("v" : String) = "x|v") := by
  exact ⟨rfl, rfl, by decide⟩

/-- Claim C3 (amended): the cache key is a pure function of the payload —
equal payloads (in particular equal input tuples) always give equal keys —
and the intended converse holds only on separator-free inputs under an
injective hash: there, keys are equal iff all five inputs are pairwise
equal.  (With inputs containing `|`, or under the truncated SHA-1 of the
source, distinct inputs can collide.) -/
theorem cacheKey_deterministic_and_conditionally_injective :
    (∀ (hash : String → String) (p1 v1 f1 k1 : String) (b1 : Bool)
      (p2 v2 f2 k2 : String) (b2 : Bool),
      cacheKeyPayload p1 v1 f1 k1 b1 = cacheKeyPayload p2 v2 f2 k2 b2 →
      buildCacheKeyWith hash p1 v1 f1 k1 b1 = buildCacheKeyWith hash p2 v2 f2 k2 b2) ∧
    (∀ (hash : String → String), Function.Injective hash →
      ∀ (p1 v1 f1 k1 : String) (b1 : Bool) (p2 v2 f2 k2 : String) (b2 : Bool),
      pipeFree p1 → pipeFree v1 → pipeFree f1 → pipeFree k1 →
      pipeFree p2 → pipeFree v2 → pipeFree f2 → pipeFree k2 →
      (buildCacheKeyWith hash p1 v1 f1 k1 b1 = buildCacheKeyWith hash p2 v2 f2 k2 b2 ↔
        (p1 = p2 ∧ v1 = v2 ∧ f1 = f2 ∧ k1 = k2 ∧ b1 = b2))) := by
  constructor
  · intro hash p1 v1 f1 k1 b1 p2 v2 f2 k2 b2 h
    simp [buildCacheKeyWith, h]
  · intro hash hinj p1 v1 f1 k1 b1 p2 v2 f2 k2 b2 hp1 hv1 hf1 hk1 hp2 hv2 hf2 hk2
    constructor
    · intro h
      have hpay : cacheKeyPayload p1 v1 f1 k1 b1 = cacheKeyPayload p2 v2 f2 k2 b2 := by
        apply hinj
        have hd := congrArg String.data h
        simp only [buildCacheKeyWith, String.data_append] at hd
        exact String.ext (List.append_cancel_left hd)
      exact cacheKeyPayload_inj p1 v1 f1 k1 b1 p2 v2 f2 k2 b2
        hp1 hv1 hf1 hk1 hp2 hv2 hf2 hk2 hpay
    · rintro ⟨rfl, rfl, rfl, rfl, rfl⟩
      rfl

/-- Witness for C3 (amended): under the identity hash, distinct separator-free
product ids give distinct keys, and equal inputs give equal keys. -/
theorem cacheKey_deterministic_and_conditionally_injective_witness :
    buildCacheKeyWith (fun st => st) "a" "v" "f" "k" true ≠
      buildCacheKeyWith (fun st => st) "b" "v" "f" "k" true := by
  intro h
  have hiff := cacheKey_deterministic_and_conditionally_injective.2
    (fun st => st) (fun _ _ hx => hx) "a" "v" "f" "k" true "b" "v" "f" "k" true
    (by decide) (by decide) (by decide) (by decide)
    (by decide) (by decide) (by decide) (by decide)
  exact absurd (hiff.mp h).1 (by decide)


/-- Unfolding equation for `stripFencesAux` on a list of length at least 3. -/
theorem stripFencesAux_cons3 (f : Nat) (c1 c2 c3 : Char) (rest : List Char) :
    stripFencesAux (f + 1) (c1 :: c2 :: c3 :: rest) =
      if c1 = backtickChar ∧ c2 = backtickChar ∧ c3 = backtickChar then
        (match rest with
         | 'j' :: 's' :: 'o' :: 'n' :: rest2 => stripFencesAux f rest2
         | _ => stripFencesAux f rest)
      else c1 :: stripFencesAux f (c2 :: c3 :: rest) := rfl

/-- Fence stripping only removes characters. -/
theorem mem_stripFencesAux : ∀ (fuel : Nat) (cs : List Char) (c : Char),
    c ∈ stripFencesAux fuel cs → c ∈ cs := by
  intro fuel
  induction fuel with
  | zero => intro cs c h; exact h
  | succ f ih =>
    intro cs c h
    match cs with
    | [] => exact h
    | [c1] => exact h
    | [c1, c2] => exact h
    | c1 :: c2 :: c3 :: rest =>
      have hh0 := stripFencesAux_cons3 f c1 c2 c3 rest
      by_cases hbt : c1 = backtickChar ∧ c2 = backtickChar ∧ c3 = backtickChar
      · rw [hh0, if_pos hbt] at h
        split at h
        · rename_i rest2
          have hm := ih _ _ h
          simp only [List.mem_cons] at hm ⊢
          tauto
        · have hm := ih _ _ h
          simp only [List.mem_cons] at hm ⊢
          tauto
      · rw [hh0, if_neg hbt] at h
        rcases List.mem_cons.mp h with hc | hc
        · simp [hc]
        · have hm := ih _ _ hc
          simp only [List.mem_cons] at hm ⊢
          tauto

/-- Trimming only removes characters. -/
theorem mem_jsTrim (cs : List Char) (c : Char) (h : c ∈ jsTrim cs) : c ∈ cs := by
  rw [jsTrim, List.mem_reverse] at h
  have h2 := List.Sublist.mem h (List.dropWhile_sublist _)
  rw [List.mem_reverse] at h2
  exact List.Sublist.mem h2 (List.dropWhile_sublist _)

/-- A character absent from the raw text is absent from the cleaned text,
so in particular an input without `\x7b` has no scan start position. -/
theorem no_brace_cleaned (t : String) (h : '\x7b' ∉ t.data) :
    firstIdxOf (cleanedOf t) '\x7b' = none := by
  rw [firstIdxOf, List.findIdx?_eq_none_iff]
  intro x hx
  refine decide_eq_false fun hxeq => h ?_
  subst hxeq
  exact mem_stripFencesAux _ _ _ (mem_jsTrim _ _ hx)

/-- Counterexample to claim C4 as stated: the input `"true"` contains no
`\x7b`, yet extraction does not fail — the direct whole-string parse accepts
it first. -/
theorem extractJson_no_brace_counterexample :
    extractJsonFromText "true" = .ok (.bool true) ∧ '\x7b' ∉ "true".data :=
  ⟨rfl, by decide⟩

/-- Claim C4 (amended): after stripping code fences the extractor first
attempts a whole-string parse and returns its result on success; an input
whose cleaned text has no `\x7b` fails with an extraction error provided the
direct whole-string parse also failed; the nested-brace object extracts
exactly, without truncation at the inner `\x7d`; a failing depth-zero
candidate does not abort the scan; and when the scan finds nothing the
greedy first-`\x7b`-to-last-`\x7d` fallback is parsed. -/
theorem extractJson_algorithm_behavior :
    (∀ (t : String) (j : Json), jsonParseChars (cleanedOf t) = some j →
      extractJsonFromText t = .ok j) ∧
    (extractJsonFromText "\x7b\"description\":\"<p>\x7bweird\x7d</p>\",\"socials\":null\x7d" =
      .ok (.obj [("description", .str "<p>\x7bweird\x7d</p>"), ("socials", .null)])) ∧
    (∀ t : String, '\x7b' ∉ t.data → jsonParseChars (cleanedOf t) = none →
      ∃ e, extractJsonFromText t = .error e) ∧
    (extractJsonFromText "noise \x7b\"x\": \"\x7d\x7b\", \"y\": 1\x7d" =
      .ok (.obj [("x", .str "\x7d\x7b"), ("y", .num "1")])) ∧
    (extractJsonFromText "x \x7b\"a\":\"\x7d\"\x7d" = .ok (.obj [("a", .str "\x7d")])) := by
  refine ⟨?_, rfl, ?_, rfl, rfl⟩
  · intro t j h
    by_cases ht : t = ""
    · subst ht
      rw [show jsonParseChars (cleanedOf "") = none from rfl] at h
      exact absurd h (by simp)
    · simp only [extractJsonFromText, if_neg ht, h]
  · intro t hb hparse
    by_cases ht : t = ""
    · subst ht
      exact ⟨"Empty response", rfl⟩
    · refine ⟨"No JSON object found in AI response", ?_⟩
      simp only [extractJsonFromText, if_neg ht, hparse, no_brace_cleaned t hb]

/-- Witness for C4 (amended): the bare object `\x7b\x7d` is returned by the
direct parse, and a braceless non-JSON input fails. -/
theorem extractJson_algorithm_behavior_witness :
    extractJsonFromText "\x7b\x7d" = .ok (.obj []) ∧
    ∃ e, extractJsonFromText "nope" = .error e :=
  ⟨extractJson_algorithm_behavior.1 "\x7b\x7d" (.obj []) rfl,
   extractJson_algorithm_behavior.2.2.1 "nope" (by decide) rfl⟩


/-- `upsert` leaves lookups of other keys unchanged. -/
theorem lookup_upsert_ne (fields : List (String × Json)) (k k2 : String) (v : Json)
    (h : k2 ≠ k) : (upsert fields k v).lookup k2 = fields.lookup k2 := by
  induction fields with
  | nil =>
    have hb : (k2 == k) = false := beq_eq_false_iff_ne.mpr h
    simp [upsert, List.lookup, hb]
  | cons kv rest ih =>
    obtain ⟨k3, v3⟩ := kv
    by_cases h3 : k3 = k
    · subst h3
      simp [upsert, List.lookup, beq_eq_false_iff_ne.mpr h]
    · simp [upsert, h3, List.lookup, ih]

/-- `upsert` at a key is invisible after filtering that key out. -/
theorem filter_upsert (fields : List (String × Json)) (k : String) (v : Json) :
    (upsert fields k v).filter (fun kv => kv.1 ≠ k) =
      fields.filter (fun kv => kv.1 ≠ k) := by
  induction fields with
  | nil => simp [upsert]
  | cons kv rest ih =>
    obtain ⟨k3, v3⟩ := kv
    by_cases h3 : k3 = k
    · subst h3
      simp [upsert]
    · simp only [ne_eq, decide_not] at ih ⊢
      simp [upsert, h3, ih]

/-- Sanitizing the description only changes the `description` field. -/
theorem removeDescription_sanitize (san : String → String) (j : Json) :
    removeDescription (sanitizeDescription san j) = removeDescription j := by
  cases j with
  | obj fields =>
    rw [sanitizeDescription]
    cases hl : Json.getField (Json.obj fields) "description" with
    | none => rfl
    | some d =>
      by_cases ht : jsTruthy d = true
      · simp only [ht, if_true, Json.setField, removeDescription, filter_upsert]
      · simp only [ht, if_false, Bool.false_eq_true]
  | null => rfl
  | bool b => rfl
  | num lx => rfl
  | str st => rfl
  | arr el => rfl

/-- The `socials` field survives description sanitization untouched. -/
theorem getField_sanitize_socials (san : String → String) (j : Json) :
    Json.getField (sanitizeDescription san j) "socials" = Json.getField j "socials" := by
  cases j with
  | obj fields =>
    rw [sanitizeDescription]
    cases hl : Json.getField (Json.obj fields) "description" with
    | none => rfl
    | some d =>
      by_cases ht : jsTruthy d = true
      · simp only [ht, if_true, Json.setField, Json.getField]
        exact lookup_upsert_ne fields "description" "socials" _ (by decide)
      · simp only [ht, if_false, Bool.false_eq_true]
  | null => rfl
  | bool b => rfl
  | num lx => rfl
  | str st => rfl
  | arr el => rfl

/-- Off the `description` field, the retry loop is independent of the
sanitizer. -/
theorem genLoop_sanitize_frame (s1 s2 : String → String) (cfg : ServiceConfig)
    (o : Nat → UpstreamOutcome) (hr of : Bool) (shop : Option String) :
    ∀ r a le tr,
      stripResult (genLoop s1 cfg o hr of shop r a le tr).1 =
        stripResult (genLoop s2 cfg o hr of shop r a le tr).1 ∧
      (genLoop s1 cfg o hr of shop r a le tr).2.upstreamCalls =
        (genLoop s2 cfg o hr of shop r a le tr).2.upstreamCalls ∧
      (genLoop s1 cfg o hr of shop r a le tr).2.waits =
        (genLoop s2 cfg o hr of shop r a le tr).2.waits ∧
      (genLoop s1 cfg o hr of shop r a le tr).2.usageIncremented =
        (genLoop s2 cfg o hr of shop r a le tr).2.usageIncremented ∧
      stripWrites (genLoop s1 cfg o hr of shop r a le tr).2.cacheWrites =
        stripWrites (genLoop s2 cfg o hr of shop r a le tr).2.cacheWrites := by
  intro r
  induction r with
  | zero => intro a le tr; exact ⟨rfl, rfl, rfl, rfl, rfl⟩
  | succ k ih =>
    intro a le tr
    rw [genLoop]
    cases hq : callDeepSeekHTTP cfg.apiKeyConfigured (o a) with
    | ok raw =>
      rw [genLoop, hq]
      dsimp only
      refine ⟨?_, rfl, rfl, rfl, ?_⟩
      · simp only [stripResult, removeDescription_sanitize]
      · simp only [stripWrites, List.map_append]
        split <;> simp [removeDescription_sanitize]
    | error e =>
      rw [genLoop, hq]
      dsimp only
      exact ih (a + 1) (some e) _

/-- Claim C10: only `description` passes through the sanitizer.  The
`socials` value of a sanitized result is exactly that of the raw result;
everything except the `description` field — error outcomes, traces, cache
writes — is independent of the sanitizer; and every fresh success returns
the sanitized raw value whose `socials` is exactly what the upstream model
produced (for every request, in particular whatever `includeSocials` is). -/
theorem socials_never_sanitized :
    (∀ (san : String → String) (j : Json),
      Json.getField (sanitizeDescription san j) "socials" = Json.getField j "socials") ∧
    (∀ (s1 s2 : String → String) (cfg : ServiceConfig) (req : GenRequest) (w : World),
      stripResult (generateDescription s1 cfg req w).1 =
        stripResult (generateDescription s2 cfg req w).1 ∧
      stripWrites (generateDescription s1 cfg req w).2.cacheWrites =
        stripWrites (generateDescription s2 cfg req w).2.cacheWrites) ∧
    (∀ (san : String → String) (cfg : ServiceConfig) (req : GenRequest) (w : World) (v : Json),
      cacheLookup w.redisAvailable w.redisOpsFail w.cached = none →
      (generateDescription san cfg req w).1 = .ok v →
      ∃ n raw, callDeepSeekHTTP cfg.apiKeyConfigured (w.outcomes n) = .ok raw ∧
        v = sanitizeDescription san raw ∧
        Json.getField v "socials" = Json.getField raw "socials") := by
  refine ⟨getField_sanitize_socials, ?_, ?_⟩
  · intro s1 s2 cfg req w
    cases hrl : (checkRateLimit cfg.rateLimitPerMin req.shop w.redisAvailable w.redisOpsFail
        w.rateCount).1.allowed with
    | false => simp [generateDescription, hrl]
    | true =>
      cases hml : (checkMonthlyLimit cfg.monthlyLimit req.shop w.redisAvailable w.redisOpsFail
          w.monthlyUsed).allowed with
      | false => simp [generateDescription, hrl, hml]
      | true =>
        cases hc : cacheLookup w.redisAvailable w.redisOpsFail w.cached with
        | some j => simp [generateDescription, hrl, hml, hc]
        | none =>
          rw [generate_fresh s1 cfg req w hrl hml hc, generate_fresh s2 cfg req w hrl hml hc]
          have hfr := genLoop_sanitize_frame s1 s2 cfg w.outcomes w.redisAvailable
            w.redisOpsFail req.shop cfg.maxRetries 1 none {}
          exact ⟨hfr.1, hfr.2.2.2.2⟩
  · intro san cfg req w v hc hok
    rcases generate_cases san cfg req w with h | ⟨u, l, h⟩ | ⟨j, hcj, h⟩ | ⟨hcn, h⟩
    · rw [h] at hok; simp at hok
    · rw [h] at hok; simp at hok
    · rw [hcj] at hc; exact Option.noConfusion hc
    · rw [h] at hok
      rcases genLoop_master san cfg w.outcomes w.redisAvailable w.redisOpsFail req.shop
          cfg.maxRetries 1 none {} with ⟨_, _, e2, he⟩ | ⟨n, raw, hraw, hres, _, _, _⟩
      · rw [he] at hok; simp at hok
      · rw [hres] at hok
        have hv : v = sanitizeDescription san raw := (Except.ok.inj hok).symm
        exact ⟨n, raw, hraw, hv, by rw [hv]; exact getField_sanitize_socials san raw⟩

/-- Witness for C10: a concrete fresh success whose sanitizer rewrites
every input to "CLEAN" still returns the upstream `socials` verbatim. -/
theorem socials_never_sanitized_witness :
    ∃ n raw,
      callDeepSeekHTTP ({ apiKeyConfigured := true } : ServiceConfig).apiKeyConfigured
        (({ redisAvailable := false,
            outcomes := fun _ => .httpResponse true 200
              "\x7b\"description\":\"<p>x</p>\",\"socials\":\x7b\"twitter\":\"RAW\"\x7d\x7d" } :
          World).outcomes n) = .ok raw ∧
      Json.obj [("description", Json.str "CLEAN"),
        ("socials", Json.obj [("twitter", Json.str "RAW")])] =
        sanitizeDescription (fun _ => "CLEAN") raw ∧
      Json.getField (Json.obj [("description", Json.str "CLEAN"),
        ("socials", Json.obj [("twitter", Json.str "RAW")])]) "socials" =
        Json.getField raw "socials" :=
  socials_never_sanitized.2.2 (fun _ => "CLEAN") { apiKeyConfigured := true } {}
    { redisAvailable := false,
      outcomes := fun _ => .httpResponse true 200
        "\x7b\"description\":\"<p>x</p>\",\"socials\":\x7b\"twitter\":\"RAW\"\x7d\x7d" }
    (Json.obj [("description", Json.str "CLEAN"),
      ("socials", Json.obj [("twitter", Json.str "RAW")])]) rfl rfl


end Deskribe
